import Mathlib

/-!
Verification of the fail-safe log-message formatting pipeline of
folly/experimental/logging/LogStreamProcessor.h.

The pipeline builds one message string per log statement.  Two modes exist:
concatenation mode (createLogString, backed by folly::to) and template mode
(formatLogString, backed by folly::sformat).  Each primary attempt runs inside
a failure boundary that catches exceptions derived from std::exception and
degrades to fallback text; template mode degrades through fallbackFormat,
which stringifies every argument individually via
detail::fallbackFormatOneArg.

Modelling conventions:
- A C++ exception is `Exn.std w` (derived from std::exception, with what()
  text `w`) or `Exn.other` (any exception not so derived).  The catch clauses
  in the source are all written over const std::exception references, so only
  `Exn.std` failures are caught.
- A fallible text-producing operation has type `Except Exn String`.
- The folly library conversion routines themselves (folly::to, toAppend,
  folly::sformat, folly::demangle) are not part of the sources; per the spec
  they are fallible textual-conversion capabilities treated as untrusted, so
  each is modelled by the outcome it produces (see `Arg` and the `fmtRes`
  parameter of `formatLogString`).  Each individual library call is atomic:
  on failure it appends nothing, but text appended by earlier successful
  calls inside the same try block persists, exactly as with the incremental
  appends of the source.
- Both createLogString and formatLogString are declared noexcept in the
  source, so an exception that escapes their internal catch terminates the
  program instead of reaching the caller; the model surfaces such an escape
  as a result of the form `Except.error Exn.other` (no string is returned).
- A C++ call that does not compile (an instantiation with no viable overload)
  is modelled as `none` at the `Option` layer.
-/

namespace FollyLog

/-- A C++ exception as the failure boundaries of the source distinguish them:
`std w` is an exception derived from std::exception whose what() text is `w`;
`other` is an exception of any other kind. -/
inductive Exn where
  | std (what : String)
  | other
deriving DecidableEq

deriving instance DecidableEq for Except

/-- Modelled from the spec: one caller-supplied argument of a log statement.
The folly conversion routines are not among the sources, and the spec
describes them as fallible textual-conversion capabilities, so an argument
carries: whether a toAppend textual-conversion capability exists for its type
(`hasToAppend`, deciding the overload of detail::fallbackFormatOneArg and
whether folly::to accepts the argument), the outcome of attempting that
conversion (`conv`), and the outcome of the type-name lookup
folly::demangle(typeid(*arg)) (`typeName`). -/
structure Arg where
  hasToAppend : Bool
  conv : Except Exn String
  typeName : Except Exn String

/-- detail::fallbackFormatOneArg.  The `rtti` flag models the compile-time
FOLLY_HAS_RTTI configuration.  When the type of the argument has a toAppend
capability (the int-overload, selected by expression SFINAE) the function
pushes an opening parenthesis, then inside a try block appends the demangled
type name and a colon (under RTTI) followed by the converted text, catches
any std::exception to substitute the error placeholder, and closes the
parenthesis.  Text appended by calls that succeeded before a later call threw
persists, as in the source, where everything appends into the same buffer.
When no toAppend capability exists (the long-overload) the type-name lookup
runs in its own try block whose catch clause ignores the error, and the
fixed no-conversion placeholder plus closing parenthesis is appended. -/
def fallbackFormatOneArg (rtti : Bool) (a : Arg) : Except Exn String :=
  if a.hasToAppend then
    let body : String × Option Exn :=
      if rtti then
        match a.typeName with
        | Except.error e => ("", some e)
        | Except.ok tn =>
          match a.conv with
          | Except.error e => (tn ++ ": ", some e)
          | Except.ok cv => (tn ++ ": " ++ cv, none)
      else
        match a.conv with
        | Except.error e => ("", some e)
        | Except.ok cv => (cv, none)
    match body with
    | (txt, none) => Except.ok ("(" ++ txt ++ ")")
    | (txt, some (Exn.std _)) =>
        Except.ok ("(" ++ txt ++ "<error_converting_to_string>" ++ ")")
    | (_, some Exn.other) => Except.error Exn.other
  else
    if rtti then
      match a.typeName with
      | Except.ok tn => Except.ok ("(" ++ tn ++ ": " ++ "<no_string_conversion>)")
      | Except.error (Exn.std _) => Except.ok ("(" ++ "<no_string_conversion>)")
      | Except.error Exn.other => Except.error Exn.other
    else
      Except.ok ("(" ++ "<no_string_conversion>)")

/-- LogStreamProcessor::fallbackFormat over the argument pack.  The source
declares exactly two overloads: one taking a single argument and one taking
two or more; no overload accepts an empty pack, so a zero-argument call has
no viable overload and the enclosing instantiation is ill-formed, modelled
as `none`.  An exception escaping fallbackFormatOneArg (necessarily not
std::exception-derived) aborts the iteration and escapes. -/
def fallbackFormat (rtti : Bool) : List Arg → Option (Except Exn String)
  | [] => none
  | [a] => some (fallbackFormatOneArg rtti a)
  | a :: b :: rest =>
    match fallbackFormatOneArg rtti a with
    | Except.error e => some (Except.error e)
    | Except.ok s =>
      match fallbackFormat rtti (b :: rest) with
      | none => none
      | some (Except.error e) => some (Except.error e)
      | some (Except.ok s2) => some (Except.ok (s ++ ", " ++ s2))

/-- Modelled from the spec: folly::to applied to the whole argument list of
concatenation mode (folly::to is not among the sources).  Per the spec this
is plain concatenation of the textual conversion of each argument across the
whole list, left to right; the first conversion failure is the failure of the
whole call, and an argument whose type has no toAppend capability makes the
call ill-formed (`none`).  Zero arguments yield the empty string. -/
def follyToString : List Arg → Option (Except Exn String)
  | [] => some (Except.ok "")
  | a :: rest =>
    if a.hasToAppend then
      match a.conv with
      | Except.error e => some (Except.error e)
      | Except.ok s =>
        match follyToString rest with
        | none => none
        | some (Except.error e) => some (Except.error e)
        | some (Except.ok s2) => some (Except.ok (s ++ s2))
    else none

/-- LogStreamProcessor::createLogString: concatenation mode.  The primary
attempt folly::to runs in a try block; a caught std::exception is turned into
the fixed error prefix followed by its what() text; any other exception
escapes the boundary. -/
def createLogString (args : List Arg) : Option (Except Exn String) :=
  match follyToString args with
  | none => none
  | some (Except.ok s) => some (Except.ok s)
  | some (Except.error (Exn.std w)) =>
      some (Except.ok ("error constructing log message: " ++ w))
  | some (Except.error Exn.other) => some (Except.error Exn.other)

/-- LogStreamProcessor::formatLogString: template mode.  `fmtRes` is the
outcome of the primary attempt folly::sformat(fmt, args...), modelled from
the spec as an untrusted fallible formatting operation (folly::sformat is not
among the sources).  On a caught std::exception the function assembles, in
order: the fixed prefix, the what() text of the error, the quoted verbatim
format string, the fixed arguments label, and the fallbackFormat rendering of
the arguments.  A zero-argument instantiation is ill-formed because its body
calls fallbackFormat with no arguments (`none`); any exception not derived
from std::exception escapes the boundary. -/
def formatLogString (rtti : Bool) (fmtRes : Except Exn String) (fmt : String)
    (args : List Arg) : Option (Except Exn String) :=
  match args with
  | [] => none
  | _ :: _ =>
    match fmtRes with
    | Except.ok s => some (Except.ok s)
    | Except.error Exn.other => some (Except.error Exn.other)
    | Except.error (Exn.std w) =>
      match fallbackFormat rtti args with
      | none => none
      | some (Except.error e) => some (Except.error e)
      | some (Except.ok frag) =>
        some (Except.ok ("error formatting log message: " ++ w
          ++ "; format string: \"" ++ fmt ++ "\", arguments: " ++ frag))

/-- An operation outcome that the std::exception catch boundaries can fully
absorb: a success, or a failure derived from std::exception. -/
def stdOk : Except Exn String → Bool
  | Except.error Exn.other => false
  | _ => true

/-- Both fallible capabilities of an argument are absorbable by the catch
boundaries of the source. -/
def argStd (a : Arg) : Bool := stdOk a.conv && stdOk a.typeName

/-- The text fragment the per-argument stringifier emits for one argument
(meaningful when the stringifier returns normally). -/
def fragment (rtti : Bool) (a : Arg) : String :=
  match fallbackFormatOneArg rtti a with
  | Except.ok s => s
  | Except.error _ => ""

/-- Comma-join of per-argument fragments: separator exactly ", " between
consecutive fragments, no leading or trailing separator. -/
def joinArgs : List String → String
  | [] => ""
  | [s] => s
  | s :: rest => s ++ ", " ++ joinArgs rest

/-- A construction result that returned a string to the caller. -/
def resOk : Option (Except Exn String) → Bool
  | some (Except.ok _) => true
  | _ => false

end FollyLog

namespace FollyLog

lemma argStd_conv {a : Arg} (h : argStd a = true) : stdOk a.conv = true := by
  simp only [argStd, Bool.and_eq_true] at h
  exact h.1

lemma argStd_typeName {a : Arg} (h : argStd a = true) : stdOk a.typeName = true := by
  simp only [argStd, Bool.and_eq_true] at h
  exact h.2

lemma oneArg_ok_of_std (rtti : Bool) (a : Arg) (h : argStd a = true) :
    fallbackFormatOneArg rtti a = Except.ok (fragment rtti a) := by
  rcases a with ⟨ht, (w | _) | c, (v | _) | t⟩ <;> cases ht <;> cases rtti <;>
    simp_all [fallbackFormatOneArg, fragment, argStd, stdOk]

lemma fallbackFormat_eq_join (rtti : Bool) (args : List Arg) (hne : args ≠ [])
    (h : ∀ a ∈ args, argStd a = true) :
    fallbackFormat rtti args =
      some (Except.ok (joinArgs (args.map (fragment rtti)))) := by
  induction args with
  | nil => simp at hne
  | cons a rest ih =>
    cases rest with
    | nil =>
      simp [fallbackFormat, joinArgs, oneArg_ok_of_std rtti a (h a (by simp))]
    | cons b rs =>
      have ha := oneArg_ok_of_std rtti a (h a (by simp))
      have hrest := ih (by simp) (fun x hx => h x (by simp [hx]))
      simp [fallbackFormat, ha, hrest, joinArgs]

lemma follyToString_cases (args : List Arg)
    (h : ∀ a ∈ args, a.hasToAppend = true ∧ stdOk a.conv = true) :
    (∃ s, follyToString args = some (Except.ok s)) ∨
    (∃ w, follyToString args = some (Except.error (Exn.std w))) := by
  induction args with
  | nil => exact Or.inl ⟨"", rfl⟩
  | cons a rest ih =>
    obtain ⟨h1, h2⟩ := h a (by simp)
    have hrest := ih (fun x hx => h x (by simp [hx]))
    rcases ha : a.conv with e | c
    · rcases e with w | _
      · exact Or.inr ⟨w, by simp [follyToString, h1, ha]⟩
      · rw [ha] at h2
        simp [stdOk] at h2
    · rcases hrest with ⟨s, hs⟩ | ⟨w, hw⟩
      · exact Or.inl ⟨c ++ s, by simp [follyToString, h1, ha, hs]⟩
      · exact Or.inr ⟨w, by simp [follyToString, h1, ha, hw]⟩

lemma construction_ok_of_std (rtti : Bool) (args : List Arg) (fmt : String)
    (fmtRes : Except Exn String) (hF : stdOk fmtRes = true) :
    ((∀ a ∈ args, a.hasToAppend = true ∧ stdOk a.conv = true) →
      ∃ s, createLogString args = some (Except.ok s)) ∧
    (args ≠ [] → (∀ a ∈ args, argStd a = true) →
      ∃ s, formatLogString rtti fmtRes fmt args = some (Except.ok s)) := by
  constructor
  · intro hA
    rcases follyToString_cases args hA with ⟨s, hs⟩ | ⟨w, hw⟩
    · exact ⟨s, by simp [createLogString, hs]⟩
    · exact ⟨"error constructing log message: " ++ w, by simp [createLogString, hw]⟩
  · intro hne hA
    rcases fmtRes with e | s
    · rcases e with w | _
      · have hfb := fallbackFormat_eq_join rtti args hne hA
        cases args with
        | nil => simp at hne
        | cons a rest =>
          refine ⟨"error formatting log message: " ++ w ++ "; format string: \"" ++ fmt
            ++ "\", arguments: " ++ joinArgs (List.map (fragment rtti) (a :: rest)), ?_⟩
          simp [formatLogString, hfb]
      · simp [stdOk] at hF
    · cases args with
      | nil => simp at hne
      | cons a rest => exact ⟨s, by simp [formatLogString]⟩

end FollyLog

namespace FollyLog

/-- Claim C8: concatenation-mode message construction invoked with zero
arguments succeeds and yields the empty string. -/
theorem concat_zero_args_empty : createLogString [] = some (Except.ok "") := rfl

/-- Claim C7 (failing evaluation): when the template-mode primary attempt
fails on an empty argument list, the source does NOT produce the diagnostic
string: fallbackFormat has no zero-argument overload, so the zero-argument
instantiation of formatLogString is ill-formed and no message exists. -/
theorem zero_arg_template_is_ill_formed :
    formatLogString true (Except.error (Exn.std "bad")) "fmt" [] = none ∧
    fallbackFormat true [] = none :=
  ⟨rfl, rfl⟩

/-- Claim C6: if the concatenation-mode primary conversion fails with a
std::exception whose text is w, the constructed message is exactly the fixed
prefix followed by w, with no per-argument breakdown. -/
theorem concat_failure_message (args : List Arg) (w : String)
    (h : follyToString args = some (Except.error (Exn.std w))) :
    createLogString args =
      some (Except.ok ("error constructing log message: " ++ w)) := by
  simp [createLogString, h]

theorem concat_failure_message_witness :
    createLogString [Arg.mk true (Except.error (Exn.std "boom")) (Except.ok "T")] =
      some (Except.ok ("error constructing log message: " ++ "boom")) :=
  concat_failure_message [Arg.mk true (Except.error (Exn.std "boom")) (Except.ok "T")]
    "boom" (by decide)

/-- Claim C2: if the primary attempt succeeds (folly::to over the whole list
in concatenation mode, folly::sformat in template mode), the constructed
message equals exactly what the primary attempt produced; the fallback path
is bypassed.  The template-mode conjunct holds for every nonempty argument
list, regardless of argument capabilities or conversion outcomes (the
zero-argument template instantiation is ill-formed). -/
theorem transparency_on_success (rtti : Bool) (args : List Arg) (fmt s t : String) :
    (follyToString args = some (Except.ok s) →
      createLogString args = some (Except.ok s)) ∧
    (args ≠ [] → formatLogString rtti (Except.ok t) fmt args = some (Except.ok t)) := by
  constructor
  · intro hc
    simp [createLogString, hc]
  · intro hne
    cases args with
    | nil => simp at hne
    | cons a rest => simp [formatLogString]

theorem transparency_on_success_witness :
    createLogString [Arg.mk true (Except.ok "42") (Except.ok "int")] =
      some (Except.ok "42") ∧
    formatLogString true (Except.ok "42 widgets") "f"
      [Arg.mk false (Except.error Exn.other) (Except.ok "T")] =
        some (Except.ok "42 widgets") := by
  refine ⟨?_, ?_⟩
  · exact (transparency_on_success true [Arg.mk true (Except.ok "42") (Except.ok "int")]
      "f" "42" "42 widgets").1 (by decide)
  · exact (transparency_on_success true [Arg.mk false (Except.error Exn.other) (Except.ok "T")]
      "f" "42" "42 widgets").2 (List.cons_ne_nil _ _)

/-- Claim C3: if the template-mode primary attempt fails with a
std::exception whose text is w, the constructed message is exactly the fixed
prefix, the error text, the quoted verbatim format string, the fixed
arguments label, and the per-argument fragments in original order joined by
exactly ", ".  Stated for nonempty argument lists (the zero-argument
instantiation is ill-formed) whose argument failures, if any, are
std::exception-derived (any other failure escapes and no message exists). -/
theorem template_fallback_message (rtti : Bool) (args : List Arg) (fmt w : String)
    (hne : args ≠ []) (h : ∀ a ∈ args, argStd a = true) :
    formatLogString rtti (Except.error (Exn.std w)) fmt args =
      some (Except.ok ("error formatting log message: " ++ w
        ++ "; format string: \"" ++ fmt ++ "\", arguments: "
        ++ joinArgs (args.map (fragment rtti)))) := by
  have hfb := fallbackFormat_eq_join rtti args hne h
  cases args with
  | nil => simp at hne
  | cons a rest => simp [formatLogString, hfb]

theorem template_fallback_message_witness :
    formatLogString true (Except.error (Exn.std "bad")) "f"
      [Arg.mk true (Except.ok "42") (Except.ok "int"),
       Arg.mk false (Except.ok "x") (Except.ok "T")] =
      some (Except.ok ("error formatting log message: " ++ "bad"
        ++ "; format string: \"" ++ "f" ++ "\", arguments: "
        ++ joinArgs (List.map (fragment true)
            [Arg.mk true (Except.ok "42") (Except.ok "int"),
             Arg.mk false (Except.ok "x") (Except.ok "T")]))) :=
  template_fallback_message true
    [Arg.mk true (Except.ok "42") (Except.ok "int"),
     Arg.mk false (Except.ok "x") (Except.ok "T")] "f" "bad"
    (List.cons_ne_nil _ _) (by decide)

/-- Claim C1 (counterexample to the claim as stated): the zero-argument
template instantiation returns no message at all (it is ill-formed), and a
conversion failure not derived from std::exception escapes the concatenation
boundary uncaught, so no string with embedded error text is produced (the
noexcept specifier then terminates the program). -/
theorem totality_as_stated_fails :
    formatLogString true (Except.ok "ok") "fmt" [] = none ∧
    createLogString [Arg.mk true (Except.error Exn.other) (Except.ok "T")] =
      some (Except.error Exn.other) :=
  ⟨rfl, rfl⟩

/-- Claim C1 (amended): message construction lets no failure escape and
returns a string with every error converted into embedded text, provided
every failure raised is std::exception-derived; in concatenation mode this
needs every argument to have a toAppend conversion capability whose failure,
if any, is std::exception-derived, and in template mode it needs a nonempty
argument list (the zero-argument instantiation is ill-formed) whose
conversion and type-name failures, if any, are std::exception-derived,
arguments without any conversion capability included. -/
theorem totality_under_std_failures (rtti : Bool) (args : List Arg) (fmt : String)
    (fmtRes : Except Exn String) (hF : stdOk fmtRes = true) :
    ((∀ a ∈ args, a.hasToAppend = true ∧ stdOk a.conv = true) →
      ∃ s, createLogString args = some (Except.ok s)) ∧
    (args ≠ [] → (∀ a ∈ args, argStd a = true) →
      ∃ s, formatLogString rtti fmtRes fmt args = some (Except.ok s)) :=
  construction_ok_of_std rtti args fmt fmtRes hF

theorem totality_under_std_failures_witness :
    (∃ s, createLogString
      [Arg.mk true (Except.error (Exn.std "cannot convert")) (Except.ok "int")] =
        some (Except.ok s)) ∧
    (∃ s, formatLogString true (Except.error (Exn.std "bad format")) "f"
      [Arg.mk false (Except.ok "x") (Except.ok "T")] = some (Except.ok s)) :=
  ⟨(totality_under_std_failures true
      [Arg.mk true (Except.error (Exn.std "cannot convert")) (Except.ok "int")]
      "f" (Except.error (Exn.std "bad format")) (by decide)).1 (by decide),
   (totality_under_std_failures true
      [Arg.mk false (Except.ok "x") (Except.ok "T")]
      "f" (Except.error (Exn.std "bad format")) (by decide)).2
      (List.cons_ne_nil _ _) (by decide)⟩

end FollyLog

namespace FollyLog

/-- Claim C9: the failure boundaries of the pipeline catch exactly the
std::exception-derived failures: such a failure is converted into fallback
text, while any other failure passes every boundary unconverted; under the
hypothesis that all failures are std::exception-derived, construction
returns a string. -/
theorem boundaries_catch_only_std_exceptions (rtti : Bool) (args : List Arg)
    (a : Arg) (fmt w tn : String) (fmtRes : Except Exn String) :
    (follyToString args = some (Except.error (Exn.std w)) →
      createLogString args =
        some (Except.ok ("error constructing log message: " ++ w))) ∧
    (follyToString args = some (Except.error Exn.other) →
      createLogString args = some (Except.error Exn.other)) ∧
    (args ≠ [] → formatLogString rtti (Except.error Exn.other) fmt args =
      some (Except.error Exn.other)) ∧
    (a.hasToAppend = true → a.conv = Except.error Exn.other →
      a.typeName = Except.ok tn →
      fallbackFormatOneArg rtti a = Except.error Exn.other) ∧
    (a.hasToAppend = true → a.conv = Except.error (Exn.std w) →
      a.typeName = Except.ok tn →
      ∃ s, fallbackFormatOneArg rtti a = Except.ok s) ∧
    (stdOk fmtRes = true →
      ((∀ x ∈ args, x.hasToAppend = true ∧ stdOk x.conv = true) →
        resOk (createLogString args) = true) ∧
      (args ≠ [] → (∀ x ∈ args, argStd x = true) →
        resOk (formatLogString rtti fmtRes fmt args) = true)) := by
  refine ⟨?_, ?_, ?_, ?_, ?_, ?_⟩
  · intro h
    simp [createLogString, h]
  · intro h
    simp [createLogString, h]
  · intro hne
    cases args with
    | nil => simp at hne
    | cons x rest => simp [formatLogString]
  · intro h1 h2 h3
    cases rtti <;> simp [fallbackFormatOneArg, h1, h2, h3]
  · intro h1 h2 h3
    cases rtti
    · exact ⟨"(" ++ "" ++ "<error_converting_to_string>" ++ ")",
        by simp [fallbackFormatOneArg, h1, h2]⟩
    · exact ⟨"(" ++ (tn ++ ": ") ++ "<error_converting_to_string>" ++ ")",
        by simp [fallbackFormatOneArg, h1, h2, h3]⟩
  · intro hF
    obtain ⟨h1, h2⟩ := construction_ok_of_std rtti args fmt fmtRes hF
    constructor
    · intro hA
      obtain ⟨s1, hs1⟩ := h1 hA
      simp [resOk, hs1]
    · intro hne hA
      obtain ⟨s2, hs2⟩ := h2 hne hA
      simp [resOk, hs2]

theorem boundaries_catch_only_std_exceptions_witness :
    createLogString [Arg.mk true (Except.error Exn.other) (Except.ok "U")] =
      some (Except.error Exn.other) :=
  (boundaries_catch_only_std_exceptions true
      [Arg.mk true (Except.error Exn.other) (Except.ok "U")]
      (Arg.mk true (Except.error Exn.other) (Except.ok "U")) "f" "w" "U"
      (Except.ok "x")).2.1 (by decide)

/-- Claim C10: in the no-conversion overload, a std::exception raised by the
type-name lookup is caught and ignored, and the emitted fragment always has
the shape of an opening parenthesis, a best-effort type-name segment, and
the no-conversion placeholder with the closing parenthesis, whether the
lookup succeeds, fails with a std::exception, or is disabled. -/
theorem no_conversion_branch_robust (rtti : Bool) (a : Arg)
    (ha : a.hasToAppend = false) (h : stdOk a.typeName = true) :
    ∃ m, fallbackFormatOneArg rtti a =
      Except.ok ("(" ++ m ++ "<no_string_conversion>)") := by
  rcases a with ⟨ht, cv, tn⟩
  cases ht
  · cases rtti
    · exact ⟨"", by simp [fallbackFormatOneArg]⟩
    · rcases tn with (v | _) | t
      · exact ⟨"", by simp [fallbackFormatOneArg]⟩
      · simp [stdOk] at h
      · exact ⟨t ++ ": ", by simp [fallbackFormatOneArg, String.append_assoc]⟩
  · simp at ha

theorem no_conversion_branch_robust_witness :
    ∃ m, fallbackFormatOneArg true
        (Arg.mk false (Except.ok "c") (Except.error (Exn.std "oom"))) =
      Except.ok ("(" ++ m ++ "<no_string_conversion>)") :=
  no_conversion_branch_robust true
    (Arg.mk false (Except.ok "c") (Except.error (Exn.std "oom"))) rfl (by decide)

/-- Claim C4: for an argument whose type has a toAppend capability, the
per-argument stringifier emits, on conversion success, exactly the
parenthesized type name, colon and converted text under RTTI and just the
parenthesized converted text without RTTI; when the conversion attempt
fails with a std::exception, it emits exactly the parenthesized type name,
colon and the fixed error placeholder under RTTI, the type-name segment and
colon omitted without RTTI. -/
theorem stringifier_output_cases (a : Arg) (tn cv w : String)
    (ha : a.hasToAppend = true) :
    (a.typeName = Except.ok tn → a.conv = Except.ok cv →
      fallbackFormatOneArg true a =
        Except.ok ("(" ++ tn ++ ": " ++ cv ++ ")")) ∧
    (a.conv = Except.ok cv →
      fallbackFormatOneArg false a = Except.ok ("(" ++ cv ++ ")")) ∧
    (a.typeName = Except.ok tn → a.conv = Except.error (Exn.std w) →
      fallbackFormatOneArg true a =
        Except.ok ("(" ++ tn ++ ": " ++ "<error_converting_to_string>" ++ ")")) ∧
    (a.conv = Except.error (Exn.std w) →
      fallbackFormatOneArg false a =
        Except.ok ("(" ++ "<error_converting_to_string>" ++ ")")) := by
  refine ⟨?_, ?_, ?_, ?_⟩
  · intro h1 h2
    simp [fallbackFormatOneArg, ha, h1, h2, String.append_assoc]
  · intro h2
    simp [fallbackFormatOneArg, ha, h2]
  · intro h1 h2
    simp [fallbackFormatOneArg, ha, h1, h2, String.append_assoc]
  · intro h2
    simp [fallbackFormatOneArg, ha, h2]

theorem stringifier_output_cases_witness :
    fallbackFormatOneArg true
        (Arg.mk true (Except.ok "42") (Except.ok "int")) =
      Except.ok ("(" ++ "int" ++ ": " ++ "42" ++ ")") :=
  (stringifier_output_cases (Arg.mk true (Except.ok "42") (Except.ok "int"))
    "int" "42" "unused" rfl).1 rfl rfl

end FollyLog

namespace FollyLog

lemma infix_app_cases {t a b : List Char} (h : t <:+: a ++ b) :
    t <:+: a ∨ t <:+: b ∨
      ∃ t₁ t₂, t₁ ++ t₂ = t ∧ t₁ ≠ [] ∧ t₂ ≠ [] ∧ t₁ <:+ a ∧ t₂ <+: b := by
  obtain ⟨u, v, huv⟩ := h
  rw [List.append_assoc] at huv
  rcases List.append_eq_append_iff.mp huv with ⟨a', ha', hb'⟩ | ⟨c', _, hd'⟩
  · rcases List.append_eq_append_iff.mp hb' with ⟨x, hx1, _⟩ | ⟨y, hy1, hy2⟩
    · left
      exact ⟨u, x, by rw [ha', hx1, List.append_assoc]⟩
    · rcases eq_or_ne a' [] with rfl | hA
      · right; left
        simp only [List.nil_append] at hy1
        exact ⟨[], v, by simp [← hy1, hy2]⟩
      · rcases eq_or_ne y [] with rfl | hY
        · left
          rw [List.append_nil] at hy1
          exact ⟨u, [], by simp [ha', ← hy1]⟩
        · right; right
          exact ⟨a', y, hy1.symm, hA, hY, ⟨u, ha'.symm⟩, ⟨v, hy2.symm⟩⟩
  · right; left
    exact ⟨c', v, by rw [List.append_assoc, ← hd']⟩

end FollyLog

namespace FollyLog

lemma not_infix_app_left {t a b : List Char} (c : Char)
    (hA : ¬ t <:+: a) (hB : ¬ t <:+: b)
    (hl : a.getLast? = some c) (hc : c ∉ t) : ¬ t <:+: a ++ b := by
  intro h
  rcases infix_app_cases h with h | h | ⟨t₁, t₂, ht, h1, _, hsuf, _⟩
  · exact hA h
  · exact hB h
  · obtain ⟨u, hu⟩ := hsuf
    have hgl : a.getLast? = t₁.getLast? := by
      rw [← hu, List.getLast?_append_of_ne_nil u h1]
    rw [hl] at hgl
    have hmem : c ∈ t₁ := List.mem_of_getLast?_eq_some hgl.symm
    exact hc (by rw [← ht]; exact List.mem_append.mpr (Or.inl hmem))

lemma not_infix_app_right {t a b : List Char} (c : Char)
    (hA : ¬ t <:+: a) (hB : ¬ t <:+: b)
    (hh : b.head? = some c) (hc : c ∉ t) : ¬ t <:+: a ++ b := by
  intro h
  rcases infix_app_cases h with h | h | ⟨t₁, t₂, ht, _, h2, _, hpre⟩
  · exact hA h
  · exact hB h
  · obtain ⟨u, hu⟩ := hpre
    have hhd : b.head? = t₂.head? := by
      rw [← hu, List.head?_append_of_ne_nil t₂ h2]
    rw [hh] at hhd
    have hmem : c ∈ t₂ := List.mem_of_mem_head? hhd.symm
    exact hc (by rw [← ht]; exact List.mem_append.mpr (Or.inr hmem))

end FollyLog

namespace FollyLog

def ECT : String := "error_converting_to_string"

def NSC : String := "no_string_conversion"

def containsTok (s tok : String) : Prop := tok.data <:+: s.data

def cleanStr (x : String) : Prop := ¬ containsTok x NSC ∧ ¬ containsTok x ECT

def cleanRes : Except Exn String → Prop
  | Except.ok s => cleanStr s
  | Except.error _ => True

lemma tok_not_in_rtti_ok_frag (tok tn cv : String)
    (h1 : ¬ tok.data <:+: tn.data) (h2 : ¬ tok.data <:+: cv.data)
    (hp : '(' ∉ tok.data) (hc : ':' ∉ tok.data) (hq : ')' ∉ tok.data)
    (hs : ' ' ∉ tok.data)
    (k1 : ¬ tok.data <:+: "(".data) (k2 : ¬ tok.data <:+: ": ".data)
    (k3 : ¬ tok.data <:+: ")".data) :
    ¬ containsTok ("(" ++ (tn ++ ": " ++ cv) ++ ")") tok := by
  unfold containsTok
  intro hcon
  simp only [String.data_append, List.append_assoc] at hcon
  exact not_infix_app_left '(' k1
    (not_infix_app_right ':' h1
      (not_infix_app_left ' ' k2
        (not_infix_app_right ')' h2 k3 rfl hq)
        rfl hs)
      rfl hc)
    rfl hp hcon

lemma tok_not_in_plain_ok_frag (tok cv : String)
    (h2 : ¬ tok.data <:+: cv.data)
    (hp : '(' ∉ tok.data) (hq : ')' ∉ tok.data)
    (k1 : ¬ tok.data <:+: "(".data) (k3 : ¬ tok.data <:+: ")".data) :
    ¬ containsTok ("(" ++ cv ++ ")") tok := by
  unfold containsTok
  intro hcon
  simp only [String.data_append, List.append_assoc] at hcon
  exact not_infix_app_left '(' k1
    (not_infix_app_right ')' h2 k3 rfl hq) rfl hp hcon

lemma nsc_not_in_rtti_err_frag (tn : String) (h1 : ¬ containsTok tn NSC) :
    ¬ containsTok ("(" ++ (tn ++ ": ") ++ "<error_converting_to_string>" ++ ")") NSC := by
  unfold containsTok at *
  intro hcon
  simp only [String.data_append, List.append_assoc] at hcon
  exact not_infix_app_left '(' (by decide)
    (not_infix_app_right ':' h1 (by decide) (by rfl) (by decide))
    (by rfl) (by decide) hcon

lemma ect_not_in_noconv_frag (tn : String) (h1 : ¬ containsTok tn ECT) :
    ¬ containsTok ("(" ++ tn ++ ": " ++ "<no_string_conversion>)") ECT := by
  unfold containsTok at *
  intro hcon
  simp only [String.data_append, List.append_assoc] at hcon
  exact not_infix_app_left '(' (by decide)
    (not_infix_app_right ':' h1 (by decide) (by rfl) (by decide))
    (by rfl) (by decide) hcon

lemma ect_in_err_frag (x : String) :
    containsTok (x ++ "<error_converting_to_string>" ++ ")") ECT := by
  unfold containsTok
  refine ⟨x.data ++ "<".data, ">)".data, ?_⟩
  simp only [String.data_append, List.append_assoc]
  exact congrArg (fun l => x.data ++ l) (by decide)

lemma nsc_in_noconv_frag (x : String) :
    containsTok (x ++ "<no_string_conversion>)") NSC := by
  unfold containsTok
  refine ⟨x.data ++ "<".data, ">)".data, ?_⟩
  simp only [String.data_append, List.append_assoc]
  exact congrArg (fun l => x.data ++ l) (by decide)

end FollyLog

namespace FollyLog

/-- Claim C5: on the fallback path, an argument whose conversion capability
raises a std::exception yields a fragment containing the
error_converting_to_string token and not the no_string_conversion token; an
argument with no conversion capability yields a fragment containing the
no_string_conversion token and not the error_converting_to_string token, and
that branch never consults the conversion capability; the two tokens never
occur in the same fragment.  Hypotheses: the type name and converted text of
the argument do not themselves contain either token (as for any real
demangled name), and the fragment was produced (a non-std failure escapes
instead). -/
theorem placeholder_tokens_disjoint (rtti : Bool) (a : Arg) (w s : String)
    (htn : cleanRes a.typeName) (hcv : cleanRes a.conv)
    (hs : fallbackFormatOneArg rtti a = Except.ok s) :
    (a.hasToAppend = true → a.conv = Except.error (Exn.std w) →
      containsTok s ECT ∧ ¬ containsTok s NSC) ∧
    (a.hasToAppend = false →
      (containsTok s NSC ∧ ¬ containsTok s ECT) ∧
      ∀ c, fallbackFormatOneArg rtti (Arg.mk false c a.typeName) =
        fallbackFormatOneArg rtti a) ∧
    ¬ (containsTok s ECT ∧ containsTok s NSC) := by
  rcases a with ⟨ht, cv, tn⟩
  cases ht
  case false =>
    cases rtti
    · simp [fallbackFormatOneArg] at hs
      subst hs
      refine ⟨?_, ?_, ?_⟩
      · intro h
        simp at h
      · intro _
        refine ⟨⟨?_, ?_⟩, ?_⟩
        · unfold containsTok
          decide
        · unfold containsTok
          decide
        · intro c
          rfl
      · rintro ⟨hE, _⟩
        unfold containsTok at hE
        exact absurd hE (by decide)
    · rcases tn with (v | _) | t
      · simp [fallbackFormatOneArg] at hs
        subst hs
        refine ⟨?_, ?_, ?_⟩
        · intro h
          simp at h
        · intro _
          refine ⟨⟨?_, ?_⟩, ?_⟩
          · unfold containsTok
            decide
          · unfold containsTok
            decide
          · intro c
            rfl
        · rintro ⟨hE, _⟩
          unfold containsTok at hE
          exact absurd hE (by decide)
      · simp [fallbackFormatOneArg] at hs
      · simp only [cleanRes] at htn
        simp [fallbackFormatOneArg] at hs
        subst hs
        refine ⟨?_, ?_, ?_⟩
        · intro h
          simp at h
        · intro _
          refine ⟨⟨?_, ?_⟩, ?_⟩
          · exact nsc_in_noconv_frag ("(" ++ t ++ ": ")
          · exact ect_not_in_noconv_frag t htn.2
          · intro c
            rfl
        · rintro ⟨hE, _⟩
          exact ect_not_in_noconv_frag t htn.2 hE
  case true =>
    cases rtti
    · rcases cv with (wc | _) | c
      · simp [fallbackFormatOneArg] at hs
        subst hs
        refine ⟨?_, ?_, ?_⟩
        · intro _ _
          refine ⟨?_, ?_⟩
          · unfold containsTok
            decide
          · unfold containsTok
            decide
        · intro h
          simp at h
        · rintro ⟨_, hN⟩
          unfold containsTok at hN
          exact absurd hN (by decide)
      · simp [fallbackFormatOneArg] at hs
      · simp only [cleanRes] at hcv
        simp [fallbackFormatOneArg] at hs
        subst hs
        have hnoN : ¬ containsTok ("(" ++ c ++ ")") NSC :=
          tok_not_in_plain_ok_frag NSC c hcv.1 (by decide) (by decide)
            (by decide) (by decide)
        refine ⟨?_, ?_, ?_⟩
        · intro _ h2
          simp at h2
        · intro h
          simp at h
        · rintro ⟨_, hN⟩
          exact hnoN hN
    · rcases tn with (v | _) | t
      · simp [fallbackFormatOneArg] at hs
        subst hs
        refine ⟨?_, ?_, ?_⟩
        · intro _ _
          refine ⟨?_, ?_⟩
          · unfold containsTok
            decide
          · unfold containsTok
            decide
        · intro h
          simp at h
        · rintro ⟨_, hN⟩
          unfold containsTok at hN
          exact absurd hN (by decide)
      · simp [fallbackFormatOneArg] at hs
      · simp only [cleanRes] at htn
        rcases cv with (wc | _) | c
        · simp [fallbackFormatOneArg] at hs
          subst hs
          have hnoN := nsc_not_in_rtti_err_frag t htn.1
          refine ⟨?_, ?_, ?_⟩
          · intro _ _
            exact ⟨ect_in_err_frag ("(" ++ (t ++ ": ")), hnoN⟩
          · intro h
            simp at h
          · rintro ⟨_, hN⟩
            exact hnoN hN
        · simp [fallbackFormatOneArg] at hs
        · simp only [cleanRes] at hcv
          simp [fallbackFormatOneArg] at hs
          subst hs
          have hnoN : ¬ containsTok ("(" ++ (t ++ ": " ++ c) ++ ")") NSC :=
            tok_not_in_rtti_ok_frag NSC t c htn.1 hcv.1 (by decide) (by decide)
              (by decide) (by decide) (by decide) (by decide) (by decide)
          refine ⟨?_, ?_, ?_⟩
          · intro _ h2
            simp at h2
          · intro h
            simp at h
          · rintro ⟨_, hN⟩
            exact hnoN hN

end FollyLog

namespace FollyLog

theorem placeholder_tokens_disjoint_witness :
    containsTok "(int: <error_converting_to_string>)" ECT ∧
    ¬ containsTok "(int: <error_converting_to_string>)" NSC :=
  (placeholder_tokens_disjoint true
      (Arg.mk true (Except.error (Exn.std "e")) (Except.ok "int")) "e"
      "(int: <error_converting_to_string>)"
      (by show cleanStr "int"; unfold cleanStr containsTok; exact ⟨by decide, by decide⟩)
      trivial (by decide)).1 rfl rfl

end FollyLog
